import Mathlib

/-!
Shallow embedding of the typed event dispatch registry in
`src/examples/game_event/main.cpp` (class `EventDispatcher`).

The C++ core is:

  std::unordered_map<std::type_index,
                     std::vector<std::function<void(const GameEvent&)>>> listeners;

  template <typename T>
  void addEventListener(TypedEventListener<T>* listener) {
    listeners[std::type_index(typeid(T))].push_back([listener](const GameEvent& e) {
      if (const T* typedEvent = dynamic_cast<const T*>(&e)) {
        listener->onEvent(*typedEvent);
      }
    });
  }

  void dispatchEvent(const GameEvent& event) {
    auto it = listeners.find(std::type_index(typeid(event)));
    if (it != listeners.end()) {
      for (const auto& listener : it->second) {
        listener(event);
      }
    }
  }

Embedding choices:
* `τ` is the type of runtime type identities (`std::type_index` values of
  event classes).  `dynamic_cast<const T*>` success is modelled by a boolean
  relation `castOk : τ → τ → Bool`, where `castOk D T = true` means an event
  whose concrete runtime class is `D` can be narrowed to `T` (in C++: `D` is
  `T` itself or a class publicly derived from `T`); `castOk t t = true` is a
  fact of `dynamic_cast` carried as a hypothesis where needed.
* The `unordered_map` is an association list with unique-key update
  semantics: `tablePush` models `listeners[k].push_back(en)` (`operator[]`
  inserts an empty vector when the key is absent), `tableFind` models
  `listeners.find(k)`.
* A registered closure is a `DeliveryEntry`: it captures the listener (as an
  identifier) and the static type `T` its narrowing check tests.  Invoking a
  closure is `runEntry`, which produces the list of observable handler
  invocations (`onEvent` calls): one invocation when the narrowing check
  succeeds, none when it fails.
* `dispatchEvent` returns the dispatcher state after the call together with
  the trace of handler invocations, in invocation order.
* The concrete hierarchy of the example program (`GameEvent` as base class,
  `PlayerMoveEvent` and `EnemySpawnEvent` derived from it) is `GTy` with its
  cast relation `gCastOk`.
-/

namespace GameEventDispatch

/-- An event value: its concrete runtime class identity (`typeid(event)`)
and its payload data. -/
structure GameEvent (τ : Type) where
  runtimeType : τ
  payload : Nat
deriving DecidableEq

/-- A registered closure from `addEventListener<T>`: `expected` is the
static type `T` whose `dynamic_cast` the closure performs, `listenerId`
identifies the captured `TypedEventListener<T>*`. -/
structure DeliveryEntry (τ : Type) where
  expected : τ
  listenerId : Nat
deriving DecidableEq

/-- One observable handler invocation: listener `listenerId` had its
`TypedEventListener<handlerType>::onEvent` called with `event`. -/
structure Invocation (τ : Type) where
  listenerId : Nat
  handlerType : τ
  event : GameEvent τ
deriving DecidableEq

/-- The `listeners` member: a map from type identity to the vector of
registered closures, embedded as an association list with unique keys. -/
abbrev ListenerTable (τ : Type) := List (τ × List (DeliveryEntry τ))

/-- The `EventDispatcher` object state. -/
structure EventDispatcher (τ : Type) where
  listeners : ListenerTable τ
deriving DecidableEq

variable {τ : Type} [DecidableEq τ]

/-- `listeners.find(t)`: the vector stored under key `t`, if present. -/
def tableFind : ListenerTable τ → τ → Option (List (DeliveryEntry τ))
  | [], _ => none
  | (k, v) :: rest, t => if k = t then some v else tableFind rest t

/-- `listeners[t].push_back(en)`: append `en` to the vector under key `t`,
inserting an empty vector first when the key is absent. -/
def tablePush : ListenerTable τ → τ → DeliveryEntry τ → ListenerTable τ
  | [], t, en => [(t, [en])]
  | (k, v) :: rest, t, en =>
      if k = t then (k, v ++ [en]) :: rest
      else (k, v) :: tablePush rest t en

/-- `addEventListener<T>(listener)`: stores under key `typeid(T)` a closure
whose narrowing check tests the same `T`. -/
def EventDispatcher.addEventListener (d : EventDispatcher τ) (T : τ)
    (listenerId : Nat) : EventDispatcher τ :=
  ⟨tablePush d.listeners T ⟨T, listenerId⟩⟩

/-- Invoking one registered closure on event `e`: the `dynamic_cast` in the
closure body succeeds iff `castOk e.runtimeType en.expected`; on success the
listener handler runs once, on failure nothing observable happens. -/
def runEntry (castOk : τ → τ → Bool) (en : DeliveryEntry τ) (e : GameEvent τ) :
    List (Invocation τ) :=
  if castOk e.runtimeType en.expected then [⟨en.listenerId, en.expected, e⟩] else []

/-- `dispatchEvent(event)`: look up `typeid(event)` in the table; when absent
do nothing, when present invoke each stored closure in order.  Returns the
dispatcher state after the call and the invocation trace. -/
def EventDispatcher.dispatchEvent (castOk : τ → τ → Bool) (d : EventDispatcher τ)
    (e : GameEvent τ) : EventDispatcher τ × List (Invocation τ) :=
  match tableFind d.listeners e.runtimeType with
  | none => (d, [])
  | some entries => (d, entries.flatMap (fun en => runEntry castOk en e))

/-- The trace of handler invocations of one `dispatchEvent` call. -/
def dispatchTrace (castOk : τ → τ → Bool) (d : EventDispatcher τ)
    (e : GameEvent τ) : List (Invocation τ) :=
  (d.dispatchEvent castOk e).2

/-- A freshly constructed `EventDispatcher` (empty table). -/
def emptyDispatcher : EventDispatcher τ := ⟨[]⟩

/-- The dispatcher obtained from a sequence of `addEventListener` calls on a
fresh dispatcher, each call given as (static type `T`, listener id). -/
def buildDispatcher (regs : List (τ × Nat)) : EventDispatcher τ :=
  regs.foldl (fun d r => d.addEventListener r.1 r.2) emptyDispatcher

/-- The sequence of entries registered under key `t` (empty when the key is
absent, matching the no-op branch of `dispatchEvent`). -/
def entriesFor (d : EventDispatcher τ) (t : τ) : List (DeliveryEntry τ) :=
  (tableFind d.listeners t).getD []

/-- Runtime type identities of the example program: the base class
`GameEvent` and the two derived event classes. -/
inductive GTy
  | gameEvent
  | playerMoveEvent
  | enemySpawnEvent
deriving DecidableEq

/-- `dynamic_cast` success for the example hierarchy: every event class
narrows to `GameEvent` (the public base), and to itself. -/
def gCastOk : GTy → GTy → Bool
  | _, .gameEvent => true
  | .playerMoveEvent, .playerMoveEvent => true
  | .enemySpawnEvent, .enemySpawnEvent => true
  | _, _ => false

/-! ### Table lemmas -/

theorem tableFind_tablePush_same (l : ListenerTable τ) (t : τ) (en : DeliveryEntry τ) :
    tableFind (tablePush l t en) t = some ((tableFind l t).getD [] ++ [en]) := by
  induction l with
  | nil => simp [tablePush, tableFind]
  | cons p rest ih =>
      obtain ⟨k, v⟩ := p
      by_cases hk : k = t
      · subst hk
        simp [tablePush, tableFind]
      · simp [tablePush, tableFind, hk, ih]

theorem tableFind_tablePush_ne (l : ListenerTable τ) (t k : τ) (en : DeliveryEntry τ)
    (hk : k ≠ t) : tableFind (tablePush l t en) k = tableFind l k := by
  induction l with
  | nil =>
      have hne : t ≠ k := fun h => hk h.symm
      simp [tablePush, tableFind, hne]
  | cons p rest ih =>
      obtain ⟨k0, v⟩ := p
      by_cases h0 : k0 = t
      · subst h0
        have hne : k0 ≠ k := fun h => hk h.symm
        simp [tablePush, tableFind, hne]
      · simp only [tablePush, if_neg h0, tableFind]
        by_cases h1 : k0 = k
        · simp [h1]
        · simp [h1, ih]

theorem entriesFor_addEventListener_same (d : EventDispatcher τ) (T : τ) (s : Nat) :
    entriesFor (d.addEventListener T s) T = entriesFor d T ++ [⟨T, s⟩] := by
  simp [entriesFor, EventDispatcher.addEventListener, tableFind_tablePush_same]

theorem entriesFor_addEventListener_ne (d : EventDispatcher τ) (T k : τ) (s : Nat)
    (hk : k ≠ T) : entriesFor (d.addEventListener T s) k = entriesFor d k := by
  simp [entriesFor, EventDispatcher.addEventListener, tableFind_tablePush_ne _ _ _ _ hk]

/-! ### Characterising the table built through the registration interface -/

theorem entriesFor_foldl (regs : List (τ × Nat)) (d : EventDispatcher τ) (V : τ) :
    entriesFor (regs.foldl (fun d r => d.addEventListener r.1 r.2) d) V
      = entriesFor d V
        ++ (regs.filter (fun r => decide (r.1 = V))).map
            (fun r => DeliveryEntry.mk r.1 r.2) := by
  induction regs generalizing d with
  | nil => simp
  | cons r rest ih =>
      by_cases hr : r.1 = V
      · subst hr
        simp [List.foldl_cons, ih, List.filter_cons, entriesFor_addEventListener_same]
      · simp [List.foldl_cons, ih, List.filter_cons, hr,
          entriesFor_addEventListener_ne _ _ _ _ (fun h : V = r.1 => hr h.symm)]

theorem entriesFor_buildDispatcher (regs : List (τ × Nat)) (V : τ) :
    entriesFor (buildDispatcher regs) V
      = (regs.filter (fun r => decide (r.1 = V))).map
          (fun r => DeliveryEntry.mk r.1 r.2) := by
  have h := entriesFor_foldl regs emptyDispatcher V
  simpa [buildDispatcher, entriesFor, emptyDispatcher, tableFind] using h

/-! ### The invocation trace of one dispatch call -/

theorem dispatchTrace_eq_flatMap (castOk : τ → τ → Bool) (d : EventDispatcher τ)
    (e : GameEvent τ) :
    dispatchTrace castOk d e
      = (entriesFor d e.runtimeType).flatMap (fun en => runEntry castOk en e) := by
  unfold dispatchTrace EventDispatcher.dispatchEvent entriesFor
  cases tableFind d.listeners e.runtimeType <;> simp

theorem mem_dispatchTrace_shape (castOk : τ → τ → Bool) (regs : List (τ × Nat))
    (e : GameEvent τ) (inv : Invocation τ)
    (h : inv ∈ dispatchTrace castOk (buildDispatcher regs) e) :
    inv.handlerType = e.runtimeType ∧ inv.event = e := by
  rw [dispatchTrace_eq_flatMap, entriesFor_buildDispatcher] at h
  simp only [List.mem_flatMap, List.mem_map, List.mem_filter, decide_eq_true_eq] at h
  obtain ⟨en, ⟨r, ⟨hmem, hr1⟩, hen⟩, hinv⟩ := h
  unfold runEntry at hinv
  by_cases hc : castOk e.runtimeType en.expected
  · rw [if_pos hc] at hinv
    simp only [List.mem_singleton] at hinv
    subst hinv
    subst hen
    exact ⟨hr1, rfl⟩
  · rw [if_neg hc] at hinv
    simp at hinv

theorem flatMap_runEntry_filtered (castOk : τ → τ → Bool) (l : List (τ × Nat))
    (e : GameEvent τ) (hrefl : castOk e.runtimeType e.runtimeType = true) :
    ((l.filter (fun r => decide (r.1 = e.runtimeType))).map
        (fun r => DeliveryEntry.mk r.1 r.2)).flatMap (fun en => runEntry castOk en e)
      = (l.filter (fun r => decide (r.1 = e.runtimeType))).map
          (fun r => Invocation.mk r.2 e.runtimeType e) := by
  induction l with
  | nil => simp
  | cons r rest ih =>
      by_cases hr : r.1 = e.runtimeType
      · have hrun : runEntry castOk ⟨e.runtimeType, r.2⟩ e
            = [⟨r.2, e.runtimeType, e⟩] := by
          simp [runEntry, hrefl]
        simp [List.filter_cons, hr, hrun, ih]
      · simp [List.filter_cons, hr, ih]

theorem dispatchTrace_buildDispatcher (castOk : τ → τ → Bool) (regs : List (τ × Nat))
    (e : GameEvent τ) (hrefl : castOk e.runtimeType e.runtimeType = true) :
    dispatchTrace castOk (buildDispatcher regs) e
      = (regs.filter (fun r => decide (r.1 = e.runtimeType))).map
          (fun r => Invocation.mk r.2 e.runtimeType e) := by
  rw [dispatchTrace_eq_flatMap, entriesFor_buildDispatcher,
    flatMap_runEntry_filtered _ _ _ hrefl]

theorem count_invocations_filtered (l : List (τ × Nat)) (V : τ) (e : GameEvent τ)
    (s : Nat) :
    ((l.filter (fun r => decide (r.1 = V))).map
        (fun r => Invocation.mk r.2 V e)).count ⟨s, V, e⟩ = l.count (V, s) := by
  induction l with
  | nil => simp
  | cons r rest ih =>
      obtain ⟨a, b⟩ := r
      by_cases hr : a = V
      · subst hr
        by_cases hs : b = s
        · subst hs
          simp [List.filter_cons, List.count_cons, ih]
        · simp [List.filter_cons, List.count_cons, ih, hs, Prod.ext_iff]
      · simp [List.filter_cons, List.count_cons, hr, ih, Prod.ext_iff]

/-! ### The claims -/

/-- Claim C1: publishing an event whose concrete variant is `V` invokes
subscriber `s`'s handler for `V` exactly once per registration of `(V, s)`;
duplicate registrations are counted separately (no deduplication), so two
registrations give two invocations per matching publish. -/
theorem publish_invokes_once_per_registration (castOk : τ → τ → Bool)
    (regs : List (τ × Nat)) (e : GameEvent τ) (s : Nat)
    (hrefl : castOk e.runtimeType e.runtimeType = true) :
    (dispatchTrace castOk (buildDispatcher regs) e).count ⟨s, e.runtimeType, e⟩
      = regs.count (e.runtimeType, s) := by
  rw [dispatchTrace_buildDispatcher _ _ _ hrefl, count_invocations_filtered]

theorem publish_invokes_once_per_registration_witness :
    (dispatchTrace gCastOk
        (buildDispatcher [(GTy.playerMoveEvent, 1), (GTy.enemySpawnEvent, 2),
          (GTy.playerMoveEvent, 1)])
        ⟨GTy.playerMoveEvent, 5⟩).count
        ⟨1, GTy.playerMoveEvent, ⟨GTy.playerMoveEvent, 5⟩⟩
      = [(GTy.playerMoveEvent, 1), (GTy.enemySpawnEvent, 2),
          (GTy.playerMoveEvent, 1)].count (GTy.playerMoveEvent, 1)
    ∧ [(GTy.playerMoveEvent, 1), (GTy.enemySpawnEvent, 2),
          (GTy.playerMoveEvent, 1)].count (GTy.playerMoveEvent, 1) = 2 :=
  ⟨publish_invokes_once_per_registration gCastOk
      [(GTy.playerMoveEvent, 1), (GTy.enemySpawnEvent, 2), (GTy.playerMoveEvent, 1)]
      ⟨GTy.playerMoveEvent, 5⟩ 1 (by decide), by decide⟩

/-- Claim C2: a delivery entry registered for variant `A` is never invoked
when an event of a different concrete variant is published: the trace holds
no invocation of any subscriber's `A`-handler, even when `A` and the event's
variant share a supertype; a subscriber with capabilities for both variants
only has its matching handler invoked. -/
theorem no_cross_variant_invocation (castOk : τ → τ → Bool)
    (regs : List (τ × Nat)) (e : GameEvent τ) (A : τ)
    (hA : A ≠ e.runtimeType) :
    ∀ s ev, Invocation.mk s A ev ∉ dispatchTrace castOk (buildDispatcher regs) e := by
  intro s ev hmem
  exact hA (mem_dispatchTrace_shape castOk regs e _ hmem).1

theorem no_cross_variant_invocation_witness :
    (gCastOk GTy.playerMoveEvent GTy.gameEvent = true
      ∧ gCastOk GTy.enemySpawnEvent GTy.gameEvent = true)
    ∧ Invocation.mk 2 GTy.enemySpawnEvent ⟨GTy.playerMoveEvent, 7⟩
        ∉ dispatchTrace gCastOk
            (buildDispatcher [(GTy.playerMoveEvent, 1), (GTy.playerMoveEvent, 2),
              (GTy.enemySpawnEvent, 2)]) ⟨GTy.playerMoveEvent, 7⟩ :=
  ⟨by decide,
   no_cross_variant_invocation gCastOk
      [(GTy.playerMoveEvent, 1), (GTy.playerMoveEvent, 2), (GTy.enemySpawnEvent, 2)]
      ⟨GTy.playerMoveEvent, 7⟩ GTy.enemySpawnEvent (by decide) 2
      ⟨GTy.playerMoveEvent, 7⟩⟩

/-- Claim C3: one publish of a `V`-event invokes exactly the entries
registered for `V`, in their registration order: the trace is the
registration sequence filtered to `V`, so registrations for other variants
interleaved between them have no effect on it. -/
theorem dispatch_in_registration_order (castOk : τ → τ → Bool)
    (regs : List (τ × Nat)) (e : GameEvent τ)
    (hrefl : castOk e.runtimeType e.runtimeType = true) :
    dispatchTrace castOk (buildDispatcher regs) e
      = (regs.filter (fun r => decide (r.1 = e.runtimeType))).map
          (fun r => Invocation.mk r.2 e.runtimeType e) :=
  dispatchTrace_buildDispatcher castOk regs e hrefl

theorem dispatch_in_registration_order_witness :
    dispatchTrace gCastOk
        (buildDispatcher [(GTy.playerMoveEvent, 1), (GTy.enemySpawnEvent, 2),
          (GTy.playerMoveEvent, 2)]) ⟨GTy.playerMoveEvent, 3⟩
      = ([(GTy.playerMoveEvent, 1), (GTy.enemySpawnEvent, 2),
          (GTy.playerMoveEvent, 2)].filter
            (fun r => decide (r.1 = GTy.playerMoveEvent))).map
          (fun r => Invocation.mk r.2 GTy.playerMoveEvent ⟨GTy.playerMoveEvent, 3⟩)
    ∧ ([(GTy.playerMoveEvent, 1), (GTy.enemySpawnEvent, 2),
          (GTy.playerMoveEvent, 2)].filter
            (fun r => decide (r.1 = GTy.playerMoveEvent))).map
          (fun r => Invocation.mk r.2 GTy.playerMoveEvent ⟨GTy.playerMoveEvent, 3⟩)
        = [⟨1, GTy.playerMoveEvent, ⟨GTy.playerMoveEvent, 3⟩⟩,
           ⟨2, GTy.playerMoveEvent, ⟨GTy.playerMoveEvent, 3⟩⟩] :=
  ⟨dispatch_in_registration_order gCastOk
      [(GTy.playerMoveEvent, 1), (GTy.enemySpawnEvent, 2), (GTy.playerMoveEvent, 2)]
      ⟨GTy.playerMoveEvent, 3⟩ (by decide), by decide⟩

/-- Claim C4: publishing an event variant with zero registered entries has no
observable effect: no handler invocation occurs, the dispatcher state is
unchanged, and the call returns normally (no error path exists). -/
theorem publish_without_subscribers_is_noop (castOk : τ → τ → Bool)
    (d : EventDispatcher τ) (e : GameEvent τ)
    (h : entriesFor d e.runtimeType = []) :
    d.dispatchEvent castOk e = (d, []) := by
  unfold EventDispatcher.dispatchEvent
  cases hf : tableFind d.listeners e.runtimeType with
  | none => rfl
  | some entries =>
      unfold entriesFor at h
      rw [hf] at h
      simp only [Option.getD_some] at h
      subst h
      simp

theorem publish_without_subscribers_is_noop_witness :
    (buildDispatcher [(GTy.playerMoveEvent, 1)]).dispatchEvent gCastOk
        ⟨GTy.enemySpawnEvent, 4⟩
      = (buildDispatcher [(GTy.playerMoveEvent, 1)], []) :=
  publish_without_subscribers_is_noop gCastOk
    (buildDispatcher [(GTy.playerMoveEvent, 1)]) ⟨GTy.enemySpawnEvent, 4⟩ (by decide)

/-- Claim C5: hierarchy-based delivery is not supported end-to-end: for an
event of concrete variant `D`, an entry registered under a strict supertype
`B` of `D` has a narrowing check that would accept the event (its closure
would fire if reached), yet no invocation of a `B`-handler ever appears in
the publish trace, because the table lookup is keyed by `D` itself. -/
theorem no_supertype_delivery (castOk : τ → τ → Bool) (regs : List (τ × Nat))
    (e : GameEvent τ) (B : τ)
    (hsub : castOk e.runtimeType B = true) (hne : B ≠ e.runtimeType) :
    (∀ s, runEntry castOk ⟨B, s⟩ e = [⟨s, B, e⟩])
      ∧ ∀ s ev, Invocation.mk s B ev
          ∉ dispatchTrace castOk (buildDispatcher regs) e := by
  constructor
  · intro s
    simp [runEntry, hsub]
  · intro s ev hmem
    exact hne (mem_dispatchTrace_shape castOk regs e _ hmem).1

theorem no_supertype_delivery_witness :
    runEntry gCastOk ⟨GTy.gameEvent, 3⟩ ⟨GTy.playerMoveEvent, 0⟩
        = [⟨3, GTy.gameEvent, ⟨GTy.playerMoveEvent, 0⟩⟩]
      ∧ Invocation.mk 3 GTy.gameEvent ⟨GTy.playerMoveEvent, 0⟩
          ∉ dispatchTrace gCastOk
              (buildDispatcher [(GTy.gameEvent, 3), (GTy.playerMoveEvent, 1)])
              ⟨GTy.playerMoveEvent, 0⟩ :=
  ⟨(no_supertype_delivery gCastOk [(GTy.gameEvent, 3), (GTy.playerMoveEvent, 1)]
      ⟨GTy.playerMoveEvent, 0⟩ GTy.gameEvent (by decide) (by decide)).1 3,
   (no_supertype_delivery gCastOk [(GTy.gameEvent, 3), (GTy.playerMoveEvent, 1)]
      ⟨GTy.playerMoveEvent, 0⟩ GTy.gameEvent (by decide) (by decide)).2 3
      ⟨GTy.playerMoveEvent, 0⟩⟩

/-- Claim C6: every entry reached through publish's table lookup has a
succeeding narrowing check, because registration keys each entry under the
very type its check tests; the defensive skip branch is unreachable through
the register/publish interface, and the closure performs exactly its one
handler invocation. -/
theorem narrowing_check_unreachable_skip (castOk : τ → τ → Bool)
    (regs : List (τ × Nat)) (e : GameEvent τ)
    (hrefl : ∀ t, castOk t t = true) :
    ∀ en ∈ entriesFor (buildDispatcher regs) e.runtimeType,
      castOk e.runtimeType en.expected = true
        ∧ runEntry castOk en e = [⟨en.listenerId, en.expected, e⟩] := by
  intro en hen
  rw [entriesFor_buildDispatcher] at hen
  simp only [List.mem_map, List.mem_filter, decide_eq_true_eq] at hen
  obtain ⟨r, ⟨hmem, hr1⟩, hen⟩ := hen
  subst hen
  refine ⟨?_, ?_⟩
  · simpa [hr1] using hrefl e.runtimeType
  · simp [runEntry, hr1, hrefl e.runtimeType]

theorem narrowing_check_unreachable_skip_witness :
    gCastOk GTy.playerMoveEvent
        (DeliveryEntry.expected ⟨GTy.playerMoveEvent, 2⟩) = true
      ∧ runEntry gCastOk ⟨GTy.playerMoveEvent, 2⟩ ⟨GTy.playerMoveEvent, 6⟩
          = [⟨2, GTy.playerMoveEvent, ⟨GTy.playerMoveEvent, 6⟩⟩] :=
  narrowing_check_unreachable_skip gCastOk
    [(GTy.playerMoveEvent, 1), (GTy.playerMoveEvent, 2)] ⟨GTy.playerMoveEvent, 6⟩
    (fun t => by cases t <;> rfl) ⟨GTy.playerMoveEvent, 2⟩ (by decide)

omit [DecidableEq τ] in
/-- Claim C7: when a delivery entry's narrowing check fails on the event it
is handed, the closure performs no handler invocation and produces nothing
the publisher could observe: the mismatch is silently skipped. -/
theorem narrowing_failure_silent (castOk : τ → τ → Bool)
    (en : DeliveryEntry τ) (e : GameEvent τ)
    (h : castOk e.runtimeType en.expected = false) :
    runEntry castOk en e = [] := by
  simp [runEntry, h]

theorem narrowing_failure_silent_witness :
    runEntry gCastOk ⟨GTy.playerMoveEvent, 1⟩ ⟨GTy.enemySpawnEvent, 8⟩ = [] :=
  narrowing_failure_silent gCastOk ⟨GTy.playerMoveEvent, 1⟩
    ⟨GTy.enemySpawnEvent, 8⟩ (by decide)

/-- Claim C8: dispatch is read-only with respect to the table: for every
dispatcher state and every event (a variant with entries or without), the
state component returned by `dispatchEvent` is the state it was called on;
only `addEventListener` changes the table. -/
theorem dispatch_preserves_table (castOk : τ → τ → Bool)
    (d : EventDispatcher τ) (e : GameEvent τ) :
    (d.dispatchEvent castOk e).1 = d := by
  unfold EventDispatcher.dispatchEvent
  cases tableFind d.listeners e.runtimeType <;> rfl

/-- Claim C9: registering under `T` appends exactly one entry at the end of
the sequence keyed by `T`, preserving the existing entries and their order,
and the lookup result of every other key is unchanged. -/
theorem register_appends_exactly_one (d : EventDispatcher τ) (T : τ) (s : Nat) :
    entriesFor (d.addEventListener T s) T = entriesFor d T ++ [⟨T, s⟩]
      ∧ ∀ k, k ≠ T →
          tableFind (d.addEventListener T s).listeners k
            = tableFind d.listeners k := by
  refine ⟨entriesFor_addEventListener_same d T s, fun k hk => ?_⟩
  exact tableFind_tablePush_ne d.listeners T k ⟨T, s⟩ hk

theorem register_appends_exactly_one_witness :
    (entriesFor ((buildDispatcher [(GTy.playerMoveEvent, 1)]).addEventListener
          GTy.playerMoveEvent 2) GTy.playerMoveEvent
        = entriesFor (buildDispatcher [(GTy.playerMoveEvent, 1)])
            GTy.playerMoveEvent ++ [⟨GTy.playerMoveEvent, 2⟩])
      ∧ tableFind ((buildDispatcher [(GTy.playerMoveEvent, 1)]).addEventListener
            GTy.playerMoveEvent 2).listeners GTy.enemySpawnEvent
          = tableFind (buildDispatcher [(GTy.playerMoveEvent, 1)]).listeners
              GTy.enemySpawnEvent :=
  ⟨(register_appends_exactly_one (buildDispatcher [(GTy.playerMoveEvent, 1)])
      GTy.playerMoveEvent 2).1,
   (register_appends_exactly_one (buildDispatcher [(GTy.playerMoveEvent, 1)])
      GTy.playerMoveEvent 2).2 GTy.enemySpawnEvent (by decide)⟩

/-- Claim C10: dispatch is deterministic: two dispatch calls on equal
listener tables with equal event values produce identical invocation traces
(same entries firing, same event value, same order). -/
theorem dispatch_deterministic (castOk : τ → τ → Bool)
    (d1 d2 : EventDispatcher τ) (e1 e2 : GameEvent τ)
    (hd : d1.listeners = d2.listeners) (he : e1 = e2) :
    dispatchTrace castOk d1 e1 = dispatchTrace castOk d2 e2 := by
  have hdd : d1 = d2 := by
    cases d1
    cases d2
    simpa using hd
  rw [hdd, he]

theorem dispatch_deterministic_witness :
    dispatchTrace gCastOk (buildDispatcher [(GTy.playerMoveEvent, 1)])
        ⟨GTy.playerMoveEvent, 9⟩
      = dispatchTrace gCastOk ⟨[(GTy.playerMoveEvent, [⟨GTy.playerMoveEvent, 1⟩])]⟩
          ⟨GTy.playerMoveEvent, 9⟩ :=
  dispatch_deterministic gCastOk (buildDispatcher [(GTy.playerMoveEvent, 1)])
    ⟨[(GTy.playerMoveEvent, [⟨GTy.playerMoveEvent, 1⟩])]⟩
    ⟨GTy.playerMoveEvent, 9⟩ ⟨GTy.playerMoveEvent, 9⟩ (by decide) rfl

end GameEventDispatch
